import Mathlib

/-!
Verification development for the Posterizer Pro image stylization pipeline.

The definitions below are a shallow embedding of the pipeline source
(color-space conversion, posterization, Sobel edge detection, halftone and
burst synthesis, the composite stylize pass, the parameter advisor, the
profile import path and the palette transfer).  JavaScript numbers are
modelled as exact rationals, JavaScript integer results as Int or Nat, and
canvas drawing calls as a trace of drawing operations.  Math.cos, Math.sin
and Math.PI are kept as abstract parameters since only their deterministic
functional behaviour matters for the properties proved here; Math.random is
modelled as an explicit stream of rationals consumed in call order.
-/

set_option linter.unusedVariables false

namespace PosterizerPro

/-- JavaScript Math.round: round half toward positive infinity. -/
def jsRound (x : ℚ) : ℤ := ⌊x + 1/2⌋

/-- ECMAScript ToUint8Clamp, the conversion applied when a number is stored
into a Uint8ClampedArray slot: clamp to the byte range and round ties to the
nearest even integer. -/
def toUint8Clamp (x : ℚ) : ℕ :=
  if x ≤ 0 then 0
  else if 255 ≤ x then 255
  else if x - ⌊x⌋ < 1/2 then ⌊x⌋.toNat
  else if 1/2 < x - ⌊x⌋ then ⌊x⌋.toNat + 1
  else if 2 ∣ ⌊x⌋ then ⌊x⌋.toNat else ⌊x⌋.toNat + 1

/-- Source helper clamp01. -/
def clamp01 (v : ℚ) : ℚ := max 0 (min 1 v)

/-- One RGBA pixel of an ImageData buffer, each channel an 8-bit value. -/
structure Pixel where
  r : ℕ
  g : ℕ
  b : ℕ
  a : ℕ
deriving DecidableEq, Repr

/-- A pixel buffer: width, height and row-major pixel data. -/
structure PixelBuffer where
  width : ℕ
  height : ℕ
  data : List Pixel
deriving DecidableEq, Repr

/-- An RGB palette swatch as used by the profile system. -/
structure RGB where
  r : ℕ
  g : ℕ
  b : ℕ
deriving DecidableEq, Repr

/-- Maximum of the three channel values, as computed in rgbToHsl. -/
def maxC (r g b : ℚ) : ℚ := max r (max g b)

/-- Minimum of the three channel values, as computed in rgbToHsl. -/
def minC (r g b : ℚ) : ℚ := min r (min g b)

/-- Hue numerator of rgbToHsl before the final division by 6.  The source
switches on which channel equals the maximum, in the order r, g, b, and for
the red case adds 6 when g is below b. -/
def hueOf (r g b : ℚ) : ℚ :=
  if maxC r g b = r then (g - b) / (maxC r g b - minC r g b) + (if g < b then 6 else 0)
  else if maxC r g b = g then (b - r) / (maxC r g b - minC r g b) + 2
  else (r - g) / (maxC r g b - minC r g b) + 4

/-- Body of rgbToHsl on channels already divided by 255.  Mirrors the source:
l is the midpoint of max and min, the achromatic case returns hue 0 and
saturation 0, otherwise the saturation denominator depends on whether l is
above one half, and the hue is divided by 6 at the end. -/
def rgbToHslN (r g b : ℚ) : ℚ × ℚ × ℚ :=
  if maxC r g b = minC r g b then (0, 0, (maxC r g b + minC r g b) / 2)
  else
    (hueOf r g b / 6,
     if (maxC r g b + minC r g b) / 2 > 1/2
       then (maxC r g b - minC r g b) / (2 - maxC r g b - minC r g b)
       else (maxC r g b - minC r g b) / (maxC r g b + minC r g b),
     (maxC r g b + minC r g b) / 2)

/-- Source rgbToHsl: divides each channel by 255 first, then proceeds as in
rgbToHslN.  Input channels are in the byte range, output components in the
unit interval. -/
def rgbToHsl (r g b : ℚ) : ℚ × ℚ × ℚ := rgbToHslN (r / 255) (g / 255) (b / 255)

/-- First reassignment of t inside hue2rgb: add 1 when t is negative. -/
def hueShift (t : ℚ) : ℚ := if t < 0 then t + 1 else t

/-- Second reassignment of t inside hue2rgb: subtract 1 when t exceeds 1. -/
def hueWrap (t : ℚ) : ℚ := if t > 1 then t - 1 else t

/-- Piecewise segment evaluation of hue2rgb after t has been normalized. -/
def hueSeg (p q t : ℚ) : ℚ :=
  if t < 1/6 then p + (q - p) * 6 * t
  else if t < 1/2 then q
  else if t < 2/3 then p + (q - p) * (2/3 - t) * 6
  else p

/-- Source hue2rgb helper of hslToRgb. -/
def hue2rgb (p q t : ℚ) : ℚ := hueSeg p q (hueWrap (hueShift t))

/-- The q intermediate of hslToRgb. -/
def qOf (s l : ℚ) : ℚ := if l < 1/2 then l * (1 + s) else l + s - l * s

/-- Body of hslToRgb before the final rounding to bytes: the achromatic case
returns the lightness on every channel, otherwise each channel is a hue2rgb
evaluation against p and q, where p is 2l minus q. -/
def hslToRgbF (hh s l : ℚ) : ℚ × ℚ × ℚ :=
  if s = 0 then (l, l, l)
  else
    (hue2rgb (2 * l - qOf s l) (qOf s l) (hh + 1/3),
     hue2rgb (2 * l - qOf s l) (qOf s l) hh,
     hue2rgb (2 * l - qOf s l) (qOf s l) (hh - 1/3))

/-- Source hslToRgb: scale each channel by 255 and apply Math.round. -/
def hslToRgb (hh s l : ℚ) : ℤ × ℤ × ℤ :=
  (jsRound ((hslToRgbF hh s l).1 * 255),
   jsRound ((hslToRgbF hh s l).2.1 * 255),
   jsRound ((hslToRgbF hh s l).2.2 * 255))

/-- Composition toRGB after toHSL on one color, the round trip of the spec. -/
def roundTrip (r g b : ℚ) : ℤ × ℤ × ℤ :=
  hslToRgb (rgbToHsl r g b).1 (rgbToHsl r g b).2.1 (rgbToHsl r g b).2.2

/-- Per-pixel body of posterizeAndSaturate: convert to HSL, push saturation
toward 1 by the boost amount, convert back to RGB, quantize each channel by
rounding against step, then store through the Uint8ClampedArray clamp.  The
step is 255 divided by the larger of 2 and levels minus 1, as in the source. -/
def posterizePixel (levels : ℤ) (satBoost : ℚ) (px : Pixel) : Pixel :=
  { r := toUint8Clamp ((jsRound (((hslToRgb (rgbToHsl px.r px.g px.b).1
            (clamp01 ((rgbToHsl px.r px.g px.b).2.1 + satBoost * (1 - (rgbToHsl px.r px.g px.b).2.1)))
            (rgbToHsl px.r px.g px.b).2.2).1 : ℚ) / (255 / max 2 ((levels : ℚ) - 1))) : ℚ)
            * (255 / max 2 ((levels : ℚ) - 1))),
    g := toUint8Clamp ((jsRound (((hslToRgb (rgbToHsl px.r px.g px.b).1
            (clamp01 ((rgbToHsl px.r px.g px.b).2.1 + satBoost * (1 - (rgbToHsl px.r px.g px.b).2.1)))
            (rgbToHsl px.r px.g px.b).2.2).2.1 : ℚ) / (255 / max 2 ((levels : ℚ) - 1))) : ℚ)
            * (255 / max 2 ((levels : ℚ) - 1))),
    b := toUint8Clamp ((jsRound (((hslToRgb (rgbToHsl px.r px.g px.b).1
            (clamp01 ((rgbToHsl px.r px.g px.b).2.1 + satBoost * (1 - (rgbToHsl px.r px.g px.b).2.1)))
            (rgbToHsl px.r px.g px.b).2.2).2.2 : ℚ) / (255 / max 2 ((levels : ℚ) - 1))) : ℚ)
            * (255 / max 2 ((levels : ℚ) - 1))),
    a := px.a }

/-- Source posterizeAndSaturate over a whole buffer (the per-index loop over
the flat data array, pixel by pixel). -/
def posterizeAndSaturate (buf : PixelBuffer) (levels : ℤ) (satBoost : ℚ) : PixelBuffer :=
  { buf with data := buf.data.map (posterizePixel levels satBoost) }

/-- Grayscale luminance as used by sobelEdges and the profile analyzer. -/
def lum (px : Pixel) : ℚ := 0.2126 * px.r + 0.7152 * px.g + 0.0722 * px.b

/-- Pixel lookup at coordinates x, y of a buffer, row major, matching the
source index function idx. -/
def getPx (buf : PixelBuffer) (x y : ℕ) : Pixel :=
  buf.data.getD (y * buf.width + x) ⟨0, 0, 0, 0⟩

/-- Horizontal Sobel response at an interior pixel: the 3 by 3 kernel
-1 0 1 / -2 0 2 / -1 0 1 applied to the luminance field. -/
def sobelGx (buf : PixelBuffer) (x y : ℕ) : ℚ :=
  -(lum (getPx buf (x - 1) (y - 1))) + lum (getPx buf (x + 1) (y - 1))
  - 2 * lum (getPx buf (x - 1) y) + 2 * lum (getPx buf (x + 1) y)
  - lum (getPx buf (x - 1) (y + 1)) + lum (getPx buf (x + 1) (y + 1))

/-- Vertical Sobel response at an interior pixel: the 3 by 3 kernel
-1 -2 -1 / 0 0 0 / 1 2 1 applied to the luminance field. -/
def sobelGy (buf : PixelBuffer) (x y : ℕ) : ℚ :=
  -(lum (getPx buf (x - 1) (y - 1))) - 2 * lum (getPx buf x (y - 1)) - lum (getPx buf (x + 1) (y - 1))
  + lum (getPx buf (x - 1) (y + 1)) + 2 * lum (getPx buf x (y + 1)) + lum (getPx buf (x + 1) (y + 1))

/-- Source sobelEdges.  The output starts as a zero-initialized ImageData of
the same dimensions; the loops only visit x in 1..w-2 and y in 1..h-2 and
write black with alpha 255 exactly when the gradient magnitude exceeds the
threshold.  The magnitude test sqrt of gx squared plus gy squared greater
than t is expressed equivalently without sqrt: it holds when t is negative,
or when t squared is below the sum of squares. -/
def sobelEdges (buf : PixelBuffer) (t : ℚ) : PixelBuffer :=
  { width := buf.width, height := buf.height,
    data := (List.range (buf.height * buf.width)).map fun (i : ℕ) =>
      if 1 ≤ i % buf.width ∧ i % buf.width + 1 < buf.width
          ∧ 1 ≤ i / buf.width ∧ i / buf.width + 1 < buf.height then
        if t < 0 ∨ t ^ 2 < (sobelGx buf (i % buf.width) (i / buf.width)) ^ 2
            + (sobelGy buf (i % buf.width) (i / buf.width)) ^ 2
        then ⟨0, 0, 0, 255⟩ else ⟨0, 0, 0, 0⟩
      else ⟨0, 0, 0, 0⟩ }

/-- The motif pack selector. -/
inductive MotifPack where
  | none
  | waves
  | flames
  | psychedelia
deriving DecidableEq, Repr

/-- The bounded parameter set driving the stylize pass, one field per React
control read by stylize. -/
structure ParameterSet where
  styleIntensity : ℚ
  outlineWeight : ℚ
  saturationBoost : ℚ
  motifPack : MotifPack
  halftoneEnabled : Bool
  halftoneDensity : ℚ
  burstStrength : ℚ
  transparentBackground : Bool
deriving DecidableEq, Repr

/-- One canvas drawing call issued by the stylize pass, with its numeric
arguments.  Path-producing helpers (drawWave, drawFlame, drawSpiral) are
recorded as single operations carrying the parameters that fully determine
the stroked path. -/
inductive CanvasOp where
  | clearRect (x y w h : ℚ)
  | fillRect (color : String) (x y w h : ℚ)
  | save
  | restore
  | setAlpha (a : ℚ)
  | setCompositeMultiply
  | translate (x y : ℚ)
  | line (x1 y1 x2 y2 lineWidth : ℚ)
  | putImage (data : List Pixel)
  | wave (cx cy r tightness : ℚ)
  | flame (x y height wobble : ℚ)
  | spiral (cx cy r : ℚ)
  | putImageTmp (data : List Pixel)
  | blurTmp (px : ℤ)
  | drawTmp
  | dot (x y r : ℚ)
deriving DecidableEq, Repr

/-- Whether an operation is a stroked line segment. -/
def isLineOp : CanvasOp → Bool
  | .line _ _ _ _ _ => true
  | _ => false

/-- Start point recorded by the moveTo call of a line operation. -/
def lineStart : CanvasOp → Option (ℚ × ℚ)
  | .line x1 y1 _ _ _ => some (x1, y1)
  | _ => none

/-- Source drawBurst.  Math.cos, Math.sin and Math.PI enter as the abstract
parameters cosF, sinF and piQ.  Note the source computes radius-20 start
coordinates x1, y1 but the actual path is moveTo of the center followed by
lineTo of the far end, so every emitted segment starts at the center. -/
def drawBurst (cosF sinF : ℚ → ℚ) (piQ : ℚ) (w h : ℕ) (strength : ℚ) : List CanvasOp :=
  if strength ≤ 0.01 then []
  else
    [CanvasOp.save, CanvasOp.setAlpha (0.25 * strength)] ++
    ((List.range (⌊64 * strength⌋ + 16).toNat).map fun (i : ℕ) =>
      CanvasOp.line ((w : ℚ) / 2) ((h : ℚ) / 2)
        ((w : ℚ) / 2 + cosF (((i : ℚ) / ((⌊64 * strength⌋ + 16 : ℤ) : ℚ)) * piQ * 2) * max (w : ℚ) (h : ℚ))
        ((h : ℚ) / 2 + sinF (((i : ℚ) / ((⌊64 * strength⌋ + 16 : ℤ) : ℚ)) * piQ * 2) * max (w : ℚ) (h : ℚ))
        3) ++
    [CanvasOp.restore]

/-- Halftone dot lattice spacing as computed in drawHalftone. -/
def halftoneSpacing (density : ℚ) : ℤ := 12 - ⌊density * 20⌋

/-- Coordinates visited by a for loop that starts at start, steps by spacing
and runs while below limit.  For a positive spacing this is exactly the
JavaScript loop sequence; a nonpositive spacing never occurs for a density
in the legal range and is mapped to the empty list. -/
def latticeCoords (start spacing limit : ℤ) : List ℤ :=
  if spacing ≤ 0 then []
  else ((List.range (limit - start).toNat).map fun k => start + spacing * (k : ℤ)).filter
    fun v => v < limit

/-- Source drawHalftone.  Returns immediately when the halftone toggle is off
or the density is at most 0.01; otherwise emits the alpha setting
0.15 plus density times 0.25 and the dot grid. -/
def drawHalftone (enabled : Bool) (w h : ℕ) (density : ℚ) : List CanvasOp :=
  if enabled = false ∨ density ≤ 0.01 then []
  else
    [CanvasOp.save, CanvasOp.setAlpha (0.15 + density * 0.25)] ++
    ((latticeCoords (max 1 ⌊(halftoneSpacing density : ℚ) / 4⌋) (halftoneSpacing density) (h : ℤ)).map
      fun y => (latticeCoords (max 1 ⌊(halftoneSpacing density : ℚ) / 4⌋) (halftoneSpacing density) (w : ℤ)).map
        fun x => CanvasOp.dot (x : ℚ) (y : ℚ) ((max 1 ⌊(halftoneSpacing density : ℚ) / 4⌋ : ℤ) : ℚ)).flatten ++
    [CanvasOp.restore]

/-- Source drawMotifs.  The pack none draws nothing.  The waves pack is
deterministic; the flames pack consumes two random draws per tongue (height,
then wobble inside drawFlame); the psychedelia pack consumes three random
draws per spiral (center x jitter, center y jitter, radius).  The random
stream rng is consumed starting at index k in call order, and the new stream
position is returned. -/
def drawMotifs (cosF sinF : ℚ → ℚ) (rng : ℕ → ℚ) (k : ℕ) (w h : ℕ) (pack : MotifPack)
    (intensity : ℚ) : List CanvasOp × ℕ :=
  match pack with
  | .none => ([], k)
  | .waves =>
    ([CanvasOp.save, CanvasOp.setAlpha (0.4 * intensity), CanvasOp.setCompositeMultiply] ++
     ((List.range (⌊3 + intensity * 5⌋).toNat).map fun (i : ℕ) =>
       CanvasOp.wave ((w : ℚ) / ((⌊3 + intensity * 5⌋ : ℤ) + 1 : ℚ) * ((i : ℚ) + 1))
         ((h : ℚ) * (0.65 + 0.25 * sinF i))
         (min (w : ℚ) (h : ℚ) * 0.35)
         (0.8 + 0.2 * cosF i)) ++
     [CanvasOp.restore], k)
  | .flames =>
    ([CanvasOp.save, CanvasOp.setAlpha (0.4 * intensity), CanvasOp.setCompositeMultiply,
      CanvasOp.translate 0 ((h : ℚ) * 0.85)] ++
     ((List.range (⌊25 + intensity * 40⌋).toNat).map fun (i : ℕ) =>
       CanvasOp.flame (((i : ℚ) / ((⌊25 + intensity * 40⌋ : ℤ) : ℚ)) * w) 0
         ((h : ℚ) * (0.2 + rng ((k + 2 * i : ℕ)) * 0.25))
         ((rng ((k + 2 * i + 1 : ℕ)) - 0.5) * 20)) ++
     [CanvasOp.restore], k + 2 * (⌊25 + intensity * 40⌋).toNat)
  | .psychedelia =>
    ([CanvasOp.save, CanvasOp.setAlpha (0.4 * intensity), CanvasOp.setCompositeMultiply] ++
     ((List.range (⌊4 + intensity * 6⌋).toNat).map fun (i : ℕ) =>
       CanvasOp.spiral
         ((if i % 2 = 0 then (w : ℚ) * 0.25 else (w : ℚ) * 0.75) + (rng ((k + 3 * i : ℕ)) - 0.5) * w * 0.1)
         ((if (i : ℚ) < ((⌊4 + intensity * 6⌋ : ℤ) : ℚ) / 2 then (h : ℚ) * 0.3 else (h : ℚ) * 0.7)
           + (rng ((k + 3 * i + 1 : ℕ)) - 0.5) * h * 0.1)
         (min (w : ℚ) (h : ℚ) * (0.15 + rng ((k + 3 * i + 2 : ℕ)) * 0.2))) ++
     [CanvasOp.restore], k + 3 * (⌊4 + intensity * 6⌋).toNat)

/-- Source stylize as the trace of canvas operations it issues, in program
order: clear, optional background fill, burst layer under multiply, the
posterized base image (computed on a copy of the source ImageData), the
motif layer, the thickened edge layer from the original source, and the
halftone overlay.  The source buffer plays the role of the original canvas
contents. -/
def stylize (cosF sinF : ℚ → ℚ) (piQ : ℚ) (rng : ℕ → ℚ) (src : PixelBuffer)
    (p : ParameterSet) : List CanvasOp :=
  [CanvasOp.clearRect 0 0 (src.width : ℚ) (src.height : ℚ)] ++
  (if p.transparentBackground then []
   else [CanvasOp.fillRect "#f6f6f6" 0 0 (src.width : ℚ) (src.height : ℚ)]) ++
  [CanvasOp.save, CanvasOp.setCompositeMultiply] ++
  drawBurst cosF sinF piQ src.width src.height (p.burstStrength * p.styleIntensity) ++
  [CanvasOp.restore] ++
  [CanvasOp.putImage (posterizeAndSaturate src ⌊5 + p.styleIntensity * 5⌋
      (p.saturationBoost * (0.3 + p.styleIntensity * 0.7))).data] ++
  (drawMotifs cosF sinF rng 0 src.width src.height p.motifPack p.styleIntensity).1 ++
  [CanvasOp.putImageTmp (sobelEdges src (100 - p.outlineWeight * 80)).data,
   CanvasOp.blurTmp ⌊1 + p.outlineWeight * 3⌋,
   CanvasOp.save, CanvasOp.setAlpha 0.9, CanvasOp.drawTmp, CanvasOp.restore] ++
  drawHalftone p.halftoneEnabled src.width src.height
    (if p.halftoneEnabled then p.halftoneDensity else 0)

/-- Hue bias classification of a palette. -/
inductive HueBias where
  | warm
  | cool
  | mixed
deriving DecidableEq, Repr

/-- The suggested parameter record carried by a style profile, as produced by
suggestControls and consumed by applySuggested. -/
structure Suggested where
  outlineWeight : ℚ
  saturationBoost : ℚ
  halftoneDensity : ℚ
  burstStrength : ℚ
  motifPack : MotifPack
  styleIntensity : ℚ
  applyPalette : Bool
deriving DecidableEq, Repr

/-- Warm and cool counters of the estimateHueBias loop. -/
def countWarmCool (palette : List RGB) : ℕ × ℕ :=
  palette.foldl
    (fun acc c =>
      if (rgbToHsl (c.r : ℚ) (c.g : ℚ) (c.b : ℚ)).2.1 < 0.15 then acc
      else if (rgbToHsl (c.r : ℚ) (c.g : ℚ) (c.b : ℚ)).1 < 1/6
          ∨ (rgbToHsl (c.r : ℚ) (c.g : ℚ) (c.b : ℚ)).1 > 5/6 then (acc.1 + 1, acc.2)
      else if (rgbToHsl (c.r : ℚ) (c.g : ℚ) (c.b : ℚ)).1 > 1/3
          ∧ (rgbToHsl (c.r : ℚ) (c.g : ℚ) (c.b : ℚ)).1 < 2/3 then (acc.1, acc.2 + 1)
      else acc)
    (0, 0)

/-- Source estimateHueBias: count saturated palette entries in the warm and
cool hue bands and compare the counts with a factor 1.2. -/
def estimateHueBias (palette : List RGB) : HueBias :=
  if ((countWarmCool palette).1 : ℚ) > ((countWarmCool palette).2 : ℚ) * 1.2 then .warm
  else if ((countWarmCool palette).2 : ℚ) > ((countWarmCool palette).1 : ℚ) * 1.2 then .cool
  else .mixed

/-- Source suggestControls, the parameter advisor: pure formulas over the
profile statistics, each passed through clamp01, plus the hue-bias based
motif pack choice. -/
def suggestControls (palette : List RGB) (meanSaturation saturationStd edgeDensity contrastIndex : ℚ) :
    Suggested :=
  { outlineWeight := clamp01 (0.4 + edgeDensity * 2),
    saturationBoost := clamp01 (0.2 + (0.6 - meanSaturation) * 0.6),
    halftoneDensity := clamp01 (0.05 + contrastIndex * 0.6),
    burstStrength := clamp01 (0.3 + contrastIndex * 0.5),
    motifPack :=
      match estimateHueBias palette with
      | .cool => .waves
      | .warm => .flames
      | .mixed => .psychedelia,
    styleIntensity := clamp01 (0.6 + contrastIndex * 0.3),
    applyPalette := true }

/-- A raw profile as obtained from JSON.parse: any field values are accepted
as parsed, and a missing suggested block is represented by none (accessing a
member of it then throws, as in the source). -/
structure RawProfile where
  name : String
  palette : List RGB
  meanSaturation : ℚ
  saturationStd : ℚ
  edgeDensity : ℚ
  contrastIndex : ℚ
  suggested : Option Suggested
deriving DecidableEq, Repr

/-- The React state touched by the profile import path: the held profile,
the seven control values written by applySuggested, the auto-apply toggle
and the persisted copy in localStorage. -/
structure AppState where
  profile : Option RawProfile
  outlineWeight : ℚ
  saturationBoost : ℚ
  halftoneDensity : ℚ
  burstStrength : ℚ
  motifPack : MotifPack
  styleIntensity : ℚ
  applyPaletteTransfer : Bool
  autoApply : Bool
  stored : Option RawProfile
deriving DecidableEq, Repr

/-- Source applySuggested: overwrite the seven control values from the
suggested record, with no validation of ranges. -/
def applySuggested (s : Suggested) (st : AppState) : AppState :=
  { st with
    outlineWeight := s.outlineWeight,
    saturationBoost := s.saturationBoost,
    halftoneDensity := s.halftoneDensity,
    burstStrength := s.burstStrength,
    motifPack := s.motifPack,
    styleIntensity := s.styleIntensity,
    applyPaletteTransfer := s.applyPalette }

/-- Source importProfileJSON.  The input none models data on which JSON.parse
throws; the whole body is wrapped in try-catch with an empty catch, so no
failure is ever surfaced (the second component is always none).  On parsed
data the profile state is set first; if auto-apply is on and the suggested
block is missing, the member access inside applySuggested throws after
setProfile has already been dispatched, so the controls and localStorage are
left as they were while the profile has been replaced. -/
def importProfileJSON (input : Option RawProfile) (st : AppState) : AppState × Option String :=
  match input with
  | Option.none => (st, Option.none)
  | some prof =>
    match st.autoApply, prof.suggested with
    | true, Option.none => ({ st with profile := some prof }, Option.none)
    | true, some s =>
      ({ applySuggested s { st with profile := some prof } with stored := some prof }, Option.none)
    | false, _ => ({ st with profile := some prof, stored := some prof }, Option.none)

/-- Squared Euclidean RGB distance used by closestColorIndex. -/
def distSq (c p : RGB) : ℤ :=
  ((c.r : ℤ) - p.r) ^ 2 + ((c.g : ℤ) - p.g) ^ 2 + ((c.b : ℤ) - p.b) ^ 2

/-- Loop of closestColorIndex: track the best index and best distance so far,
starting from distance infinity (none). -/
def closestGo (c : RGB) : List RGB → ℕ → ℕ → Option ℤ → ℕ
  | [], _, bi, _ => bi
  | p :: rest, i, bi, bd =>
    match bd with
    | Option.none => closestGo c rest (i + 1) i (some (distSq c p))
    | some b =>
      if distSq c p < b then closestGo c rest (i + 1) i (some (distSq c p))
      else closestGo c rest (i + 1) bi (some b)

/-- Source closestColorIndex. -/
def closestColorIndex (c : RGB) (palette : List RGB) : ℕ :=
  closestGo c palette 0 0 Option.none

/-- Per-buffer data transform of applyPaletteToImageData: empty palette is a
no-op, otherwise every pixel is replaced by its nearest palette color with
alpha untouched. -/
def applyPaletteData (palette : List RGB) (data : List Pixel) : List Pixel :=
  if palette.isEmpty then data
  else data.map fun px =>
    { r := (palette.getD (closestColorIndex ⟨px.r, px.g, px.b⟩ palette) ⟨0, 0, 0⟩).r,
      g := (palette.getD (closestColorIndex ⟨px.r, px.g, px.b⟩ palette) ⟨0, 0, 0⟩).g,
      b := (palette.getD (closestColorIndex ⟨px.r, px.g, px.b⟩ palette) ⟨0, 0, 0⟩).b,
      a := px.a }

/-- A tiny object store of ImageData buffers, used to express aliasing: a
call receives a buffer id and the returned id says which object the caller
gets back. -/
structure Store where
  bufs : List (List Pixel)
deriving DecidableEq, Repr

/-- Calling posterizeAndSaturate on a stored buffer: the source writes the
results into the data array of its argument and returns that same object. -/
def posterizeCall (st : Store) (id : ℕ) (levels : ℤ) (satBoost : ℚ) : Store × ℕ :=
  (⟨st.bufs.set id ((st.bufs.getD id []).map (posterizePixel levels satBoost))⟩, id)

/-- Calling applyPaletteToImageData on a stored buffer: the source writes the
mapped colors into the data array of its argument and returns that object. -/
def applyPaletteCall (st : Store) (id : ℕ) (palette : List RGB) : Store × ℕ :=
  (⟨st.bufs.set id (applyPaletteData palette (st.bufs.getD id []))⟩, id)

/-- Source copyImageData: allocate a fresh ImageData and copy the bytes, so
the returned id is a new object and the input is untouched. -/
def copyImageDataCall (st : Store) (id : ℕ) : Store × ℕ :=
  (⟨st.bufs ++ [st.bufs.getD id []]⟩, st.bufs.length)

/-- Three-pixel grayscale test buffer: black, middle gray, white. -/
def grayBuf : PixelBuffer :=
  ⟨1, 3, [⟨0, 0, 0, 255⟩, ⟨128, 128, 128, 255⟩, ⟨255, 255, 255, 255⟩]⟩

/-- The default control state of the application, from the useState initial
values in the source. -/
def defaultState : AppState :=
  { profile := Option.none, outlineWeight := 0.8, saturationBoost := 0.3,
    halftoneDensity := 0.15, burstStrength := 0.5, motifPack := .waves,
    styleIntensity := 0.7, applyPaletteTransfer := true, autoApply := true,
    stored := Option.none }

/-- A parseable profile whose suggested saturation boost 7 is far outside the
declared range of the control. -/
def badProfile : RawProfile :=
  { name := "x", palette := [], meanSaturation := 0, saturationStd := 0,
    edgeDensity := 0, contrastIndex := 0,
    suggested := some
      { outlineWeight := 0.8, saturationBoost := 7, halftoneDensity := 0.15,
        burstStrength := 0.5, motifPack := .waves, styleIntensity := 0.7,
        applyPalette := true } }

/-- A parseable profile with the suggested block missing entirely. -/
def headlessProfile : RawProfile :=
  { name := "y", palette := [], meanSaturation := 0, saturationStd := 0,
    edgeDensity := 0, contrastIndex := 0, suggested := Option.none }

/-- A concrete parameter set with the motif pack set to none. -/
def noneParams : ParameterSet :=
  { styleIntensity := 0.7, outlineWeight := 0.8, saturationBoost := 0.3,
    motifPack := .none, halftoneEnabled := true, halftoneDensity := 0.15,
    burstStrength := 0.5, transparentBackground := false }

/-- A 3 by 3 test buffer with a hard vertical edge: black left column, white
center and right columns, fully opaque. -/
def edgeBuf : PixelBuffer :=
  ⟨3, 3, [⟨0, 0, 0, 255⟩, ⟨255, 255, 255, 255⟩, ⟨255, 255, 255, 255⟩,
          ⟨0, 0, 0, 255⟩, ⟨255, 255, 255, 255⟩, ⟨255, 255, 255, 255⟩,
          ⟨0, 0, 0, 255⟩, ⟨255, 255, 255, 255⟩, ⟨255, 255, 255, 255⟩]⟩

/-- Lookup of one output pixel of sobelEdges as a function of its coordinates:
interior pixels get the edge test, everything else is all zero. -/
theorem sobel_data_get (buf : PixelBuffer) (t : ℚ) (x y : ℕ) (hx : x < buf.width)
    (hy : y < buf.height) :
    getPx (sobelEdges buf t) x y =
      (if 1 ≤ x ∧ x + 1 < buf.width ∧ 1 ≤ y ∧ y + 1 < buf.height then
        if t < 0 ∨ t ^ 2 < (sobelGx buf x y) ^ 2 + (sobelGy buf x y) ^ 2
        then ⟨0, 0, 0, 255⟩ else ⟨0, 0, 0, 0⟩
      else ⟨0, 0, 0, 0⟩) := by
  have hw : 0 < buf.width := lt_of_le_of_lt (Nat.zero_le x) hx
  have hidx : y * buf.width + x < buf.height * buf.width := by
    calc y * buf.width + x < y * buf.width + buf.width := by omega
    _ = (y + 1) * buf.width := by ring
    _ ≤ buf.height * buf.width := Nat.mul_le_mul_right buf.width (by omega)
  have hmod : (y * buf.width + x) % buf.width = x := by
    rw [Nat.add_comm, Nat.add_mul_mod_self_right, Nat.mod_eq_of_lt hx]
  have hdiv : (y * buf.width + x) / buf.width = y := by
    rw [Nat.add_comm, Nat.add_mul_div_right x y hw, Nat.div_eq_of_lt hx, Nat.zero_add]
  show (sobelEdges buf t).data.getD (y * (sobelEdges buf t).width + x) ⟨0, 0, 0, 0⟩ = _
  have hwidth : (sobelEdges buf t).width = buf.width := rfl
  rw [hwidth]
  have hdata : (sobelEdges buf t).data = (List.range (buf.height * buf.width)).map fun (i : ℕ) =>
      if 1 ≤ i % buf.width ∧ i % buf.width + 1 < buf.width
          ∧ 1 ≤ i / buf.width ∧ i / buf.width + 1 < buf.height then
        if t < 0 ∨ t ^ 2 < (sobelGx buf (i % buf.width) (i / buf.width)) ^ 2
            + (sobelGy buf (i % buf.width) (i / buf.width)) ^ 2
        then ⟨0, 0, 0, 255⟩ else ⟨0, 0, 0, 0⟩
      else ⟨0, 0, 0, 0⟩ := rfl
  rw [hdata, List.getD_eq_getD_get?, List.get?_map, List.get?_range hidx]
  simp only [Option.map_some', Option.getD_some]
  rw [hmod, hdiv]

/-- The shift step of hue2rgb is the identity on nonnegative arguments. -/
theorem hueShift_eq (t : ℚ) (h : 0 ≤ t) : hueShift t = t := if_neg (not_lt.mpr h)

/-- The wrap step of hue2rgb is the identity on arguments at most 1. -/
theorem hueWrap_eq (t : ℚ) (h : t ≤ 1) : hueWrap t = t := if_neg (not_lt.mpr h)

/-- On the closed middle band the hue2rgb evaluation is q; the value is
continuous across the boundary at one half, where the third segment also
yields q. -/
theorem hue_seg_q (p q t : ℚ) (h1 : 1/6 ≤ t) (h2 : t ≤ 1/2) : hue2rgb p q t = q := by
  rw [hue2rgb, hueShift_eq t (by linarith), hueWrap_eq t (by linarith), hueSeg]
  rcases lt_or_le t (1/2) with hc | hc
  · rw [if_neg (by linarith), if_pos hc]
  · have ht : t = 1/2 := le_antisymm h2 hc
    subst ht
    rw [if_neg (by norm_num), if_neg (by norm_num), if_pos (by norm_num)]
    ring

/-- On the closed first band the hue2rgb evaluation is the affine ramp from
p up to q; the value is continuous across the boundary at one sixth. -/
theorem hue_seg_lin (p q t : ℚ) (h1 : 0 ≤ t) (h2 : t ≤ 1/6) :
    hue2rgb p q t = p + (q - p) * 6 * t := by
  rw [hue2rgb, hueShift_eq t h1, hueWrap_eq t (by linarith), hueSeg]
  rcases lt_or_le t (1/6) with hc | hc
  · rw [if_pos hc]
  · have ht : t = 1/6 := le_antisymm h2 hc
    subst ht
    rw [if_neg (by norm_num), if_pos (by norm_num)]
    ring

/-- On the closed third band the hue2rgb evaluation is the affine ramp from
q back down to p; continuous across the boundary at two thirds. -/
theorem hue_seg_lin' (p q t : ℚ) (h1 : 1/2 ≤ t) (h2 : t ≤ 2/3) :
    hue2rgb p q t = p + (q - p) * (2/3 - t) * 6 := by
  rw [hue2rgb, hueShift_eq t (by linarith), hueWrap_eq t (by linarith), hueSeg]
  rcases lt_or_le t (2/3) with hc | hc
  · rw [if_neg (by linarith), if_neg (by linarith), if_pos hc]
  · have ht : t = 2/3 := le_antisymm h2 hc
    subst ht
    rw [if_neg (by norm_num), if_neg (by norm_num), if_neg (by norm_num)]
    ring

/-- On the last band the hue2rgb evaluation is p. -/
theorem hue_seg_p (p q t : ℚ) (h1 : 2/3 ≤ t) (h2 : t ≤ 1) : hue2rgb p q t = p := by
  rw [hue2rgb, hueShift_eq t (by linarith), hueWrap_eq t h2, hueSeg]
  rw [if_neg (by linarith), if_neg (by linarith), if_neg (by linarith)]

/-- Negative hue arguments in the usual range are wrapped up by one. -/
theorem hue_wrap_neg (p q t : ℚ) (h1 : -1 ≤ t) (h2 : t < 0) :
    hue2rgb p q t = hue2rgb p q (t + 1) := by
  rw [hue2rgb, hue2rgb, show hueShift t = t + 1 from if_pos h2,
    hueShift_eq (t + 1) (by linarith)]

/-- Hue arguments above one in the usual range are wrapped down by one. -/
theorem hue_wrap_pos (p q t : ℚ) (h1 : 1 < t) (h2 : t ≤ 2) :
    hue2rgb p q t = hue2rgb p q (t - 1) := by
  rw [hue2rgb, hue2rgb, hueShift_eq t (by linarith), hueShift_eq (t - 1) (by linarith),
    show hueWrap t = t - 1 from if_pos h1, hueWrap_eq (t - 1) (by linarith)]

/-- In the chromatic case the q intermediate of hslToRgb recovers exactly the
channel maximum from the saturation and lightness computed by rgbToHsl, and
that saturation is positive.  This is the key algebraic inverse: with l the
midpoint of max and min, both saturation branches make q equal max. -/
theorem qp_eq (mx mn : ℚ) (h0 : 0 ≤ mn) (hlt : mn < mx) (h1 : mx ≤ 1) :
    0 < (if (mx + mn) / 2 > 1/2 then (mx - mn) / (2 - mx - mn) else (mx - mn) / (mx + mn)) ∧
    qOf (if (mx + mn) / 2 > 1/2 then (mx - mn) / (2 - mx - mn) else (mx - mn) / (mx + mn))
      ((mx + mn) / 2) = mx := by
  have hsum : 0 < mx + mn := by linarith
  have h2s : mx + mn < 2 := by linarith
  constructor
  · split_ifs with h
    · exact div_pos (by linarith) (by linarith)
    · exact div_pos (by linarith) hsum
  · have hneA : (2 : ℚ) - mx - mn ≠ 0 := by linarith
    have hneB : mx + mn ≠ 0 := hsum.ne'
    rw [qOf]
    split_ifs with hlt2 hgt hgt
    · linarith
    · field_simp
      ring
    · field_simp
      ring
    · have hone : mx + mn = 1 := by linarith
      rw [hone]
      norm_num
      linarith

/-- Exactness of the HSL round trip before rounding: on unit-interval
channels, hslToRgb applied to the rgbToHsl output reproduces the channels
exactly, by case analysis on which channel is the maximum (in the switch
order of the source) and on the sign of the hue numerator. -/
theorem hsl_inv (r g b : ℚ) (h0r : 0 ≤ r) (h1r : r ≤ 1) (h0g : 0 ≤ g) (h1g : g ≤ 1)
    (h0b : 0 ≤ b) (h1b : b ≤ 1) :
    hslToRgbF (rgbToHslN r g b).1 (rgbToHslN r g b).2.1 (rgbToHslN r g b).2.2 = (r, g, b) := by
  rcases le_or_lt g r with hgr | hgr
  · rcases le_or_lt b r with hbr | hbr
    · rcases le_or_lt b g with hbg | hbg
      · -- red is the maximum, blue the minimum
        rcases eq_or_lt_of_le hbr with heq | hblt
        · -- achromatic: all three channels coincide
          have hg : g = r := le_antisymm hgr (heq ▸ hbg)
          subst heq
          subst hg
          have hmx : maxC g g g = g := by rw [maxC, max_self, max_self]
          have hmn : minC g g g = g := by rw [minC, min_self, min_self]
          have hstruct : rgbToHslN g g g = (0, 0, (g + g) / 2) := by
            rw [rgbToHslN, hmx, hmn, if_pos rfl]
          rw [hstruct]
          dsimp only
          rw [hslToRgbF, if_pos rfl, show (g + g) / 2 = g from by ring]
        · have hmx : maxC r g b = r := by rw [maxC, max_eq_left hbg, max_eq_left hgr]
          have hmn : minC r g b = b := by rw [minC, min_eq_right hbg, min_eq_right hblt.le]
          have hd : (0 : ℚ) < r - b := by linarith
          have hstruct : rgbToHslN r g b = (((g - b) / (r - b) + 0) / 6,
              if (r + b) / 2 > 1/2 then (r - b) / (2 - r - b) else (r - b) / (r + b),
              (r + b) / 2) := by
            rw [rgbToHslN, hueOf, hmx, hmn, if_neg hblt.ne', if_pos rfl,
              if_neg (not_lt.mpr hbg)]
          obtain ⟨hspos, hq⟩ := qp_eq r b h0b hblt h1r
          rw [hstruct]
          dsimp only
          rw [hslToRgbF, if_neg hspos.ne', hq, show 2 * ((r + b) / 2) - r = b from by ring]
          set x : ℚ := (g - b) / (r - b) with hxdef
          have hx0 : 0 ≤ x := div_nonneg (by linarith) (by linarith)
          have hx1 : x ≤ 1 := (div_le_one hd).mpr (by linarith)
          have hcancel : x * (r - b) = g - b := by
            rw [hxdef]
            exact div_mul_cancel₀ _ hd.ne'
          refine Prod.ext ?_ (Prod.ext ?_ ?_)
          · exact hue_seg_q b r ((x + 0) / 6 + 1/3) (by linarith) (by linarith)
          · calc hue2rgb b r ((x + 0) / 6)
                = b + (r - b) * 6 * ((x + 0) / 6) :=
                  hue_seg_lin b r ((x + 0) / 6) (by linarith) (by linarith)
              _ = b + x * (r - b) := by ring
              _ = b + (g - b) := by rw [hcancel]
              _ = g := by ring
          · calc hue2rgb b r ((x + 0) / 6 - 1/3)
                = hue2rgb b r ((x + 0) / 6 - 1/3 + 1) :=
                  hue_wrap_neg b r ((x + 0) / 6 - 1/3) (by linarith) (by linarith)
              _ = b := hue_seg_p b r ((x + 0) / 6 - 1/3 + 1) (by linarith) (by linarith)
      · -- red is the maximum, green the minimum, hue numerator negative
        have hmx : maxC r g b = r := by rw [maxC, max_eq_right hbg.le, max_eq_left hbr]
        have hmn : minC r g b = g := by rw [minC, min_eq_left hbg.le, min_eq_right hgr]
        have hglt : g < r := by linarith
        have hd : (0 : ℚ) < r - g := by linarith
        have hstruct : rgbToHslN r g b = (((g - b) / (r - g) + 6) / 6,
            if (r + g) / 2 > 1/2 then (r - g) / (2 - r - g) else (r - g) / (r + g),
            (r + g) / 2) := by
          rw [rgbToHslN, hueOf, hmx, hmn, if_neg hglt.ne', if_pos rfl, if_pos hbg]
        obtain ⟨hspos, hq⟩ := qp_eq r g h0g hglt h1r
        rw [hstruct]
        dsimp only
        rw [hslToRgbF, if_neg hspos.ne', hq, show 2 * ((r + g) / 2) - r = g from by ring]
        set x : ℚ := (g - b) / (r - g) with hxdef
        have hx0 : x < 0 := div_neg_of_neg_of_pos (by linarith) hd
        have hx1 : -1 ≤ x := by
          rw [hxdef, le_div_iff hd]
          linarith
        have hcancel : x * (r - g) = g - b := by
          rw [hxdef]
          exact div_mul_cancel₀ _ hd.ne'
        refine Prod.ext ?_ (Prod.ext ?_ ?_)
        · calc hue2rgb g r ((x + 6) / 6 + 1/3)
              = hue2rgb g r ((x + 6) / 6 + 1/3 - 1) :=
                hue_wrap_pos g r ((x + 6) / 6 + 1/3) (by linarith) (by linarith)
            _ = r := hue_seg_q g r ((x + 6) / 6 + 1/3 - 1) (by linarith) (by linarith)
        · exact hue_seg_p g r ((x + 6) / 6) (by linarith) (by linarith)
        · calc hue2rgb g r ((x + 6) / 6 - 1/3)
              = g + (r - g) * (2/3 - ((x + 6) / 6 - 1/3)) * 6 :=
                hue_seg_lin' g r ((x + 6) / 6 - 1/3) (by linarith) (by linarith)
            _ = g - x * (r - g) := by ring
            _ = g - (g - b) := by rw [hcancel]
            _ = b := by ring
    · -- blue is the maximum (green at most red), green the minimum
      have hgb : g ≤ b := by linarith
      have hmx : maxC r g b = b := by rw [maxC, max_eq_right hgb, max_eq_right hbr.le]
      have hmn : minC r g b = g := by rw [minC, min_eq_left hgb, min_eq_right hgr]
      have hglt : g < b := by linarith
      have hd : (0 : ℚ) < b - g := by linarith
      have hstruct : rgbToHslN r g b = (((r - g) / (b - g) + 4) / 6,
          if (b + g) / 2 > 1/2 then (b - g) / (2 - b - g) else (b - g) / (b + g),
          (b + g) / 2) := by
        rw [rgbToHslN, hueOf, hmx, hmn, if_neg hglt.ne', if_neg hbr.ne',
          if_neg (show ¬ b = g from hglt.ne')]
      obtain ⟨hspos, hq⟩ := qp_eq b g h0g hglt h1b
      rw [hstruct]
      dsimp only
      rw [hslToRgbF, if_neg hspos.ne', hq, show 2 * ((b + g) / 2) - b = g from by ring]
      set x : ℚ := (r - g) / (b - g) with hxdef
      have hx0 : 0 ≤ x := div_nonneg (by linarith) (by linarith)
      have hx1 : x < 1 := (div_lt_one hd).mpr (by linarith)
      have hcancel : x * (b - g) = r - g := by
        rw [hxdef]
        exact div_mul_cancel₀ _ hd.ne'
      refine Prod.ext ?_ (Prod.ext ?_ ?_)
      · rcases eq_or_lt_of_le hx0 with hz | hpos
        · have hrg : r - g = 0 := by rw [← hcancel, ← hz]; ring
          calc hue2rgb g b ((x + 4) / 6 + 1/3)
              = g := hue_seg_p g b ((x + 4) / 6 + 1/3) (by linarith) (by linarith [hz])
            _ = r := by linarith
        · calc hue2rgb g b ((x + 4) / 6 + 1/3)
              = hue2rgb g b ((x + 4) / 6 + 1/3 - 1) :=
                hue_wrap_pos g b ((x + 4) / 6 + 1/3) (by linarith) (by linarith)
            _ = g + (b - g) * 6 * ((x + 4) / 6 + 1/3 - 1) :=
                hue_seg_lin g b ((x + 4) / 6 + 1/3 - 1) (by linarith) (by linarith)
            _ = g + x * (b - g) := by ring
            _ = g + (r - g) := by rw [hcancel]
            _ = r := by ring
      · exact hue_seg_p g b ((x + 4) / 6) (by linarith) (by linarith)
      · exact hue_seg_q g b ((x + 4) / 6 - 1/3) (by linarith) (by linarith)
  · rcases le_or_lt b g with hbg | hbg
    · rcases le_or_lt r b with hrb | hrb
      · -- green is the maximum, red the minimum
        have hmx : maxC r g b = g := by rw [maxC, max_eq_left hbg, max_eq_right hgr.le]
        have hmn : minC r g b = r := by rw [minC, min_eq_right hbg, min_eq_left hrb]
        have hd : (0 : ℚ) < g - r := by linarith
        have hstruct : rgbToHslN r g b = (((b - r) / (g - r) + 2) / 6,
            if (g + r) / 2 > 1/2 then (g - r) / (2 - g - r) else (g - r) / (g + r),
            (g + r) / 2) := by
          rw [rgbToHslN, hueOf, hmx, hmn, if_neg hgr.ne', if_neg hgr.ne', if_pos rfl]
        obtain ⟨hspos, hq⟩ := qp_eq g r h0r hgr h1g
        rw [hstruct]
        dsimp only
        rw [hslToRgbF, if_neg hspos.ne', hq, show 2 * ((g + r) / 2) - g = r from by ring]
        set x : ℚ := (b - r) / (g - r) with hxdef
        have hx0 : 0 ≤ x := div_nonneg (by linarith) (by linarith)
        have hx1 : x ≤ 1 := (div_le_one hd).mpr (by linarith)
        have hcancel : x * (g - r) = b - r := by
          rw [hxdef]
          exact div_mul_cancel₀ _ hd.ne'
        refine Prod.ext ?_ (Prod.ext ?_ ?_)
        · exact hue_seg_p r g ((x + 2) / 6 + 1/3) (by linarith) (by linarith)
        · exact hue_seg_q r g ((x + 2) / 6) (by linarith) (by linarith)
        · calc hue2rgb r g ((x + 2) / 6 - 1/3)
              = r + (g - r) * 6 * ((x + 2) / 6 - 1/3) :=
                hue_seg_lin r g ((x + 2) / 6 - 1/3) (by linarith) (by linarith)
            _ = r + x * (g - r) := by ring
            _ = r + (b - r) := by rw [hcancel]
            _ = b := by ring
      · -- green is the maximum, blue the minimum, hue numerator negative
        have hmx : maxC r g b = g := by rw [maxC, max_eq_left hbg, max_eq_right hgr.le]
        have hmn : minC r g b = b := by rw [minC, min_eq_right hbg, min_eq_right hrb.le]
        have hblt : b < g := by linarith
        have hd : (0 : ℚ) < g - b := by linarith
        have hstruct : rgbToHslN r g b = (((b - r) / (g - b) + 2) / 6,
            if (g + b) / 2 > 1/2 then (g - b) / (2 - g - b) else (g - b) / (g + b),
            (g + b) / 2) := by
          rw [rgbToHslN, hueOf, hmx, hmn, if_neg hblt.ne',
            if_neg (show ¬ g = r from hgr.ne'), if_pos rfl]
        obtain ⟨hspos, hq⟩ := qp_eq g b h0b hblt h1g
        rw [hstruct]
        dsimp only
        rw [hslToRgbF, if_neg hspos.ne', hq, show 2 * ((g + b) / 2) - g = b from by ring]
        set x : ℚ := (b - r) / (g - b) with hxdef
        have hx0 : x < 0 := div_neg_of_neg_of_pos (by linarith) hd
        have hx1 : -1 < x := by
          rw [hxdef, lt_div_iff hd]
          linarith
        have hcancel : x * (g - b) = b - r := by
          rw [hxdef]
          exact div_mul_cancel₀ _ hd.ne'
        refine Prod.ext ?_ (Prod.ext ?_ ?_)
        · calc hue2rgb b g ((x + 2) / 6 + 1/3)
              = b + (g - b) * (2/3 - ((x + 2) / 6 + 1/3)) * 6 :=
                hue_seg_lin' b g ((x + 2) / 6 + 1/3) (by linarith) (by linarith)
            _ = b - x * (g - b) := by ring
            _ = b - (b - r) := by rw [hcancel]
            _ = r := by ring
        · exact hue_seg_q b g ((x + 2) / 6) (by linarith) (by linarith)
        · calc hue2rgb b g ((x + 2) / 6 - 1/3)
              = hue2rgb b g ((x + 2) / 6 - 1/3 + 1) :=
                hue_wrap_neg b g ((x + 2) / 6 - 1/3) (by linarith) (by linarith)
            _ = b := hue_seg_p b g ((x + 2) / 6 - 1/3 + 1) (by linarith) (by linarith)
    · -- blue is the maximum (red below green), red the minimum
      have hrb : r < b := by linarith
      have hmx : maxC r g b = b := by rw [maxC, max_eq_right hbg.le, max_eq_right hrb.le]
      have hmn : minC r g b = r := by rw [minC, min_eq_left hbg.le, min_eq_left hgr.le]
      have hd : (0 : ℚ) < b - r := by linarith
      have hstruct : rgbToHslN r g b = (((r - g) / (b - r) + 4) / 6,
          if (b + r) / 2 > 1/2 then (b - r) / (2 - b - r) else (b - r) / (b + r),
          (b + r) / 2) := by
        rw [rgbToHslN, hueOf, hmx, hmn, if_neg hrb.ne', if_neg hrb.ne',
          if_neg (show ¬ b = g from hbg.ne')]
      obtain ⟨hspos, hq⟩ := qp_eq b r h0r hrb h1b
      rw [hstruct]
      dsimp only
      rw [hslToRgbF, if_neg hspos.ne', hq, show 2 * ((b + r) / 2) - b = r from by ring]
      set x : ℚ := (r - g) / (b - r) with hxdef
      have hx0 : x < 0 := div_neg_of_neg_of_pos (by linarith) hd
      have hx1 : -1 < x := by
        rw [hxdef, lt_div_iff hd]
        linarith
      have hcancel : x * (b - r) = r - g := by
        rw [hxdef]
        exact div_mul_cancel₀ _ hd.ne'
      refine Prod.ext ?_ (Prod.ext ?_ ?_)
      · exact hue_seg_p r b ((x + 4) / 6 + 1/3) (by linarith) (by linarith)
      · calc hue2rgb r b ((x + 4) / 6)
            = r + (b - r) * (2/3 - ((x + 4) / 6)) * 6 :=
              hue_seg_lin' r b ((x + 4) / 6) (by linarith) (by linarith)
          _ = r - x * (b - r) := by ring
          _ = r - (r - g) := by rw [hcancel]
          _ = g := by ring
      · exact hue_seg_q r b ((x + 4) / 6 - 1/3) (by linarith) (by linarith)

/-- Rounding after the HSL round trip recovers every byte-valued color
exactly: the pre-rounding values are exact by hsl_inv, scaling by 255
recovers the integer channel, and Math.round of an integer is itself. -/
theorem roundTrip_exact (r g b : ℕ) (hr : r ≤ 255) (hg : g ≤ 255) (hb : b ≤ 255) :
    roundTrip (r : ℚ) (g : ℚ) (b : ℚ) = ((r : ℤ), (g : ℤ), (b : ℤ)) := by
  have h0 : ∀ v : ℕ, v ≤ 255 → (0 : ℚ) ≤ (v : ℚ) / 255 ∧ (v : ℚ) / 255 ≤ 1 := by
    intro v hv
    constructor
    · positivity
    · rw [div_le_one (by norm_num)]
      exact_mod_cast hv
  obtain ⟨h0r, h1r⟩ := h0 r hr
  obtain ⟨h0g, h1g⟩ := h0 g hg
  obtain ⟨h0b, h1b⟩ := h0 b hb
  have hinv := hsl_inv ((r : ℚ) / 255) ((g : ℚ) / 255) ((b : ℚ) / 255) h0r h1r h0g h1g h0b h1b
  have hjs : ∀ v : ℕ, jsRound (v : ℚ) = (v : ℤ) := by
    intro v
    rw [jsRound, Int.floor_eq_iff]
    constructor
    · push_cast
      linarith
    · push_cast
      linarith
  rw [roundTrip, show rgbToHsl (r : ℚ) (g : ℚ) (b : ℚ)
      = rgbToHslN ((r : ℚ) / 255) ((g : ℚ) / 255) ((b : ℚ) / 255) from rfl, hslToRgb, hinv]
  dsimp only
  rw [show ((r : ℚ) / 255) * 255 = (r : ℚ) from div_mul_cancel₀ _ (by norm_num),
    show ((g : ℚ) / 255) * 255 = (g : ℚ) from div_mul_cancel₀ _ (by norm_num),
    show ((b : ℚ) / 255) * 255 = (b : ℚ) from div_mul_cancel₀ _ (by norm_num),
    hjs r, hjs g, hjs b]

/-- C1: for every 8-bit RGB color, the round trip toRGB after toHSL differs
from the original by at most one per channel (here it is in fact exact over
exact rational arithmetic), and in the achromatic case where the maximum
channel equals the minimum channel, toHSL returns saturation 0. -/
theorem claim1_roundtrip (r g b : ℕ) (hr : r ≤ 255) (hg : g ≤ 255) (hb : b ≤ 255) :
    ((roundTrip (r : ℚ) (g : ℚ) (b : ℚ)).1 - (r : ℤ)).natAbs ≤ 1 ∧
    ((roundTrip (r : ℚ) (g : ℚ) (b : ℚ)).2.1 - (g : ℤ)).natAbs ≤ 1 ∧
    ((roundTrip (r : ℚ) (g : ℚ) (b : ℚ)).2.2 - (b : ℤ)).natAbs ≤ 1 ∧
    (max r (max g b) = min r (min g b) → (rgbToHsl (r : ℚ) (g : ℚ) (b : ℚ)).2.1 = 0) := by
  have he := roundTrip_exact r g b hr hg hb
  refine ⟨by rw [he]; simp, by rw [he]; simp, by rw [he]; simp, ?_⟩
  intro hmm
  have h1 : r ≤ max r (max g b) := le_max_left _ _
  have h2 : g ≤ max r (max g b) := le_trans (le_max_left _ _) (le_max_right _ _)
  have h3 : b ≤ max r (max g b) := le_trans (le_max_right _ _) (le_max_right _ _)
  have h4 : min r (min g b) ≤ r := min_le_left _ _
  have h5 : min r (min g b) ≤ g := le_trans (min_le_right _ _) (min_le_left _ _)
  have h6 : min r (min g b) ≤ b := le_trans (min_le_right _ _) (min_le_right _ _)
  have hrg : g = r := by omega
  have hgb2 : b = r := by omega
  rw [hrg, hgb2]
  have hmx : maxC ((r : ℚ) / 255) ((r : ℚ) / 255) ((r : ℚ) / 255) = (r : ℚ) / 255 := by
    rw [maxC, max_self, max_self]
  have hmn : minC ((r : ℚ) / 255) ((r : ℚ) / 255) ((r : ℚ) / 255) = (r : ℚ) / 255 := by
    rw [minC, min_self, min_self]
  rw [show rgbToHsl (r : ℚ) (r : ℚ) (r : ℚ)
      = rgbToHslN ((r : ℚ) / 255) ((r : ℚ) / 255) ((r : ℚ) / 255) from rfl,
    rgbToHslN, hmx, hmn, if_pos rfl]

/-- Witness for C1 at the concrete color (12, 200, 34). -/
theorem claim1_witness :
    (12 : ℕ) ≤ 255 ∧ (200 : ℕ) ≤ 255 ∧ (34 : ℕ) ≤ 255 ∧
    (((roundTrip ((12 : ℕ) : ℚ) ((200 : ℕ) : ℚ) ((34 : ℕ) : ℚ)).1 - ((12 : ℕ) : ℤ)).natAbs ≤ 1 ∧
     ((roundTrip ((12 : ℕ) : ℚ) ((200 : ℕ) : ℚ) ((34 : ℕ) : ℚ)).2.1 - ((200 : ℕ) : ℤ)).natAbs ≤ 1 ∧
     ((roundTrip ((12 : ℕ) : ℚ) ((200 : ℕ) : ℚ) ((34 : ℕ) : ℚ)).2.2 - ((34 : ℕ) : ℤ)).natAbs ≤ 1 ∧
     (max 12 (max 200 34) = min 12 (min 200 34) →
       (rgbToHsl ((12 : ℕ) : ℚ) ((200 : ℕ) : ℚ) ((34 : ℕ) : ℚ)).2.1 = 0)) :=
  ⟨by norm_num, by norm_num, by norm_num,
   claim1_roundtrip 12 200 34 (by norm_num) (by norm_num) (by norm_num)⟩

/-- Every value that the posterize quantization can store lies in the image
of the level indices 0 to L-1: in-range rounded indices map directly, and
out-of-range indices clamp to the bottom level 0 or to the top level 255. -/
theorem quant_mem (L : ℤ) (hL : 3 ≤ L) (k : ℤ) :
    toUint8Clamp ((k : ℚ) * (255 / max 2 ((L : ℚ) - 1))) ∈
      (List.range L.toNat).map fun (n : ℕ) => toUint8Clamp ((n : ℚ) * (255 / max 2 ((L : ℚ) - 1))) := by
  have hL3 : (3 : ℚ) ≤ (L : ℚ) := by exact_mod_cast hL
  have hmax : max 2 ((L : ℚ) - 1) = (L : ℚ) - 1 := max_eq_right (by linarith)
  have hne : ((L : ℚ) - 1) ≠ 0 := by linarith
  have hstep : (0 : ℚ) < 255 / max 2 ((L : ℚ) - 1) := by
    rw [hmax]
    exact div_pos (by norm_num) (by linarith)
  have hLstep : ((L : ℚ) - 1) * (255 / max 2 ((L : ℚ) - 1)) = 255 := by
    rw [hmax]
    field_simp
  by_cases hk0 : k < 0
  · have hkq : (k : ℚ) ≤ 0 := by exact_mod_cast hk0.le
    have hv : (k : ℚ) * (255 / max 2 ((L : ℚ) - 1)) ≤ 0 := by nlinarith
    have h1 : toUint8Clamp ((k : ℚ) * (255 / max 2 ((L : ℚ) - 1))) = 0 := by
      rw [toUint8Clamp, if_pos hv]
    have h2 : toUint8Clamp (((0 : ℕ) : ℚ) * (255 / max 2 ((L : ℚ) - 1))) = 0 := by
      rw [toUint8Clamp, if_pos (by simp)]
    have hmem : (0 : ℕ) ∈ List.range L.toNat := List.mem_range.mpr (by omega)
    rw [h1]
    exact List.mem_map.mpr ⟨0, hmem, h2⟩
  by_cases hkL : k ≤ L - 1
  · have hk0' : (0 : ℤ) ≤ k := not_lt.mp hk0
    have hmem : k.toNat ∈ List.range L.toNat := List.mem_range.mpr (by omega)
    refine List.mem_map.mpr ⟨k.toNat, hmem, ?_⟩
    rw [show ((k.toNat : ℕ) : ℚ) = (k : ℚ) from by exact_mod_cast Int.toNat_of_nonneg hk0']
  · have hkq : (L : ℚ) ≤ (k : ℚ) := by exact_mod_cast (by omega : L ≤ k)
    have hv : (255 : ℚ) ≤ (k : ℚ) * (255 / max 2 ((L : ℚ) - 1)) := by
      calc (255 : ℚ) = ((L : ℚ) - 1) * (255 / max 2 ((L : ℚ) - 1)) := hLstep.symm
      _ ≤ (k : ℚ) * (255 / max 2 ((L : ℚ) - 1)) := by nlinarith
    have h1 : toUint8Clamp ((k : ℚ) * (255 / max 2 ((L : ℚ) - 1))) = 255 := by
      rw [toUint8Clamp, if_neg (by linarith), if_pos hv]
    have hmem : (L - 1).toNat ∈ List.range L.toNat := List.mem_range.mpr (by omega)
    refine List.mem_map.mpr ⟨(L - 1).toNat, hmem, ?_⟩
    rw [h1, show (((L - 1).toNat : ℕ) : ℚ) = (L : ℚ) - 1 from by
      exact_mod_cast Int.toNat_of_nonneg (by omega : (0 : ℤ) ≤ L - 1), hLstep]
    rw [toUint8Clamp, if_neg (by norm_num), if_pos (by norm_num)]

/-- C2, amended: for an integer level count of at least 3 the quantization
step is 255 over L minus 1 as the claim states, each of the three output
channels takes at most L distinct values over the whole buffer, and alpha is
passed through unchanged.  (For L equal to 2 the source divides by the larger
of 2 and L minus 1, so the step is 127.5 and three output levels arise.) -/
theorem claim2_posterize_levels (buf : PixelBuffer) (L : ℤ) (B : ℚ) (hL : 3 ≤ L) :
    255 / max 2 ((L : ℚ) - 1) = 255 / ((L : ℚ) - 1) ∧
    ((posterizeAndSaturate buf L B).data.map Pixel.r).toFinset.card ≤ L.toNat ∧
    ((posterizeAndSaturate buf L B).data.map Pixel.g).toFinset.card ≤ L.toNat ∧
    ((posterizeAndSaturate buf L B).data.map Pixel.b).toFinset.card ≤ L.toNat ∧
    (posterizeAndSaturate buf L B).data.map Pixel.a = buf.data.map Pixel.a := by
  have hL3 : (3 : ℚ) ≤ (L : ℚ) := by exact_mod_cast hL
  have hmax : max 2 ((L : ℚ) - 1) = (L : ℚ) - 1 := max_eq_right (by linarith)
  have hcard : ∀ f : Pixel → ℕ,
      (∀ px, f (posterizePixel L B px) ∈
        (List.range L.toNat).map fun (n : ℕ) => toUint8Clamp ((n : ℚ) * (255 / max 2 ((L : ℚ) - 1)))) →
      ((posterizeAndSaturate buf L B).data.map f).toFinset.card ≤ L.toNat := by
    intro f hf
    have hsub : ((posterizeAndSaturate buf L B).data.map f).toFinset ⊆
        ((List.range L.toNat).map fun (n : ℕ) =>
          toUint8Clamp ((n : ℚ) * (255 / max 2 ((L : ℚ) - 1)))).toFinset := by
      intro v hv
      rw [List.mem_toFinset] at hv ⊢
      simp only [posterizeAndSaturate, List.map_map] at hv
      obtain ⟨px, _, rfl⟩ := List.mem_map.mp hv
      exact hf px
    calc ((posterizeAndSaturate buf L B).data.map f).toFinset.card
        ≤ _ := Finset.card_le_card hsub
      _ ≤ _ := List.toFinset_card_le _
      _ = L.toNat := by simp
  refine ⟨by rw [hmax], hcard Pixel.r ?_, hcard Pixel.g ?_, hcard Pixel.b ?_, ?_⟩
  · intro px
    simp only [posterizePixel]
    exact quant_mem L hL _
  · intro px
    simp only [posterizePixel]
    exact quant_mem L hL _
  · intro px
    simp only [posterizePixel]
    exact quant_mem L hL _
  · simp only [posterizeAndSaturate, List.map_map]
    congr 1

/-- C2 counterexample: with L = 2 levels the source step is 255 over
max(2, L-1) = 127.5, not 255/(L-1), and a grayscale ramp buffer comes out
with three distinct red-channel values 0, 128, 255, more than L = 2. -/
theorem claim2_counterexample :
    ((posterizeAndSaturate grayBuf 2 0).data.map Pixel.r).toFinset.card = 3 ∧
    ¬ ((posterizeAndSaturate grayBuf 2 0).data.map Pixel.r).toFinset.card ≤ 2 := by
  have hA : (posterizePixel 2 0 ⟨0, 0, 0, 255⟩).r = 0 := by
    norm_num [posterizePixel, rgbToHsl, rgbToHslN, maxC, minC, clamp01, hslToRgb, hslToRgbF,
      jsRound, toUint8Clamp]
  have hB : (posterizePixel 2 0 ⟨128, 128, 128, 255⟩).r = 128 := by
    norm_num [posterizePixel, rgbToHsl, rgbToHslN, maxC, minC, clamp01, hslToRgb, hslToRgbF,
      jsRound, toUint8Clamp]
    omega
  have hC : (posterizePixel 2 0 ⟨255, 255, 255, 255⟩).r = 255 := by
    norm_num [posterizePixel, rgbToHsl, rgbToHslN, maxC, minC, clamp01, hslToRgb, hslToRgbF,
      jsRound, toUint8Clamp]
  have hdata : (posterizeAndSaturate grayBuf 2 0).data.map Pixel.r = [0, 128, 255] := by
    show [(posterizePixel 2 0 ⟨0, 0, 0, 255⟩).r, (posterizePixel 2 0 ⟨128, 128, 128, 255⟩).r,
      (posterizePixel 2 0 ⟨255, 255, 255, 255⟩).r] = [0, 128, 255]
    rw [hA, hB, hC]
  rw [hdata]
  exact ⟨by decide, by decide⟩

/-- Witness for the amended C2 statement on the grayscale ramp with 3 levels. -/
theorem claim2_witness :
    (3 : ℤ) ≤ 3 ∧
    (255 / max 2 (((3 : ℤ) : ℚ) - 1) = 255 / (((3 : ℤ) : ℚ) - 1) ∧
     ((posterizeAndSaturate grayBuf 3 0).data.map Pixel.r).toFinset.card ≤ (3 : ℤ).toNat ∧
     ((posterizeAndSaturate grayBuf 3 0).data.map Pixel.g).toFinset.card ≤ (3 : ℤ).toNat ∧
     ((posterizeAndSaturate grayBuf 3 0).data.map Pixel.b).toFinset.card ≤ (3 : ℤ).toNat ∧
     (posterizeAndSaturate grayBuf 3 0).data.map Pixel.a = grayBuf.data.map Pixel.a) :=
  ⟨by decide, claim2_posterize_levels grayBuf 3 0 (by decide)⟩

/-- The edge test of sobelEdges, written without sqrt over the rationals, is
equivalent to the magnitude comparison of the source over the reals. -/
theorem sqrt_test (m t : ℚ) (hm : 0 ≤ m) :
    (t < 0 ∨ t ^ 2 < m) ↔ (t : ℝ) < Real.sqrt (m : ℝ) := by
  rcases lt_or_le t 0 with ht | ht
  · refine iff_of_true (Or.inl ht) (lt_of_lt_of_le ?_ (Real.sqrt_nonneg _))
    exact_mod_cast ht
  · rw [Real.lt_sqrt (by exact_mod_cast ht)]
    constructor
    · rintro (h | h)
      · exact absurd h (not_lt.mpr ht)
      · exact_mod_cast h
    · intro h
      exact Or.inr (by exact_mod_cast h)

/-- C6: for a buffer of width and height at least 3 and any threshold, the
Sobel output has all RGB channels zero everywhere, every border pixel is
left all zero (alpha 0, non-edge), and an interior pixel carries alpha 255
exactly when the Sobel gradient magnitude of the luminance field exceeds
the threshold. -/
theorem claim6_sobel_spec (buf : PixelBuffer) (t : ℚ) (hw : 3 ≤ buf.width)
    (hh : 3 ≤ buf.height) :
    (∀ x y, x < buf.width → y < buf.height →
      (getPx (sobelEdges buf t) x y).r = 0 ∧ (getPx (sobelEdges buf t) x y).g = 0 ∧
      (getPx (sobelEdges buf t) x y).b = 0) ∧
    (∀ x y, x < buf.width → y < buf.height →
      (x = 0 ∨ x = buf.width - 1 ∨ y = 0 ∨ y = buf.height - 1) →
      getPx (sobelEdges buf t) x y = ⟨0, 0, 0, 0⟩) ∧
    (∀ x y, 1 ≤ x → x + 1 < buf.width → 1 ≤ y → y + 1 < buf.height →
      ((getPx (sobelEdges buf t) x y).a = 255 ↔
        (t : ℝ) < Real.sqrt (((sobelGx buf x y : ℚ) : ℝ) ^ 2 + ((sobelGy buf x y : ℚ) : ℝ) ^ 2))) := by
  refine ⟨?_, ?_, ?_⟩
  · intro x y hx hy
    rw [sobel_data_get buf t x y hx hy]
    split_ifs <;> exact ⟨rfl, rfl, rfl⟩
  · intro x y hx hy hcase
    rw [sobel_data_get buf t x y hx hy, if_neg (by omega)]
  · intro x y hx1 hx2 hy1 hy2
    rw [sobel_data_get buf t x y (by omega) (by omega), if_pos ⟨hx1, hx2, hy1, hy2⟩]
    have hs := sqrt_test ((sobelGx buf x y) ^ 2 + (sobelGy buf x y) ^ 2) t (by positivity)
    push_cast at hs
    by_cases hc : t < 0 ∨ t ^ 2 < (sobelGx buf x y) ^ 2 + (sobelGy buf x y) ^ 2
    · rw [if_pos hc]
      exact iff_of_true rfl (hs.mp hc)
    · rw [if_neg hc]
      exact iff_of_false (by simp) fun hr => hc (hs.mpr hr)

/-- Witness for C6 on the concrete 3 by 3 hard-edge buffer at threshold 50. -/
theorem claim6_witness :
    3 ≤ edgeBuf.width ∧ 3 ≤ edgeBuf.height ∧
    ((∀ x y, x < edgeBuf.width → y < edgeBuf.height →
      (getPx (sobelEdges edgeBuf 50) x y).r = 0 ∧ (getPx (sobelEdges edgeBuf 50) x y).g = 0 ∧
      (getPx (sobelEdges edgeBuf 50) x y).b = 0) ∧
    (∀ x y, x < edgeBuf.width → y < edgeBuf.height →
      (x = 0 ∨ x = edgeBuf.width - 1 ∨ y = 0 ∨ y = edgeBuf.height - 1) →
      getPx (sobelEdges edgeBuf 50) x y = ⟨0, 0, 0, 0⟩) ∧
    (∀ x y, 1 ≤ x → x + 1 < edgeBuf.width → 1 ≤ y → y + 1 < edgeBuf.height →
      ((getPx (sobelEdges edgeBuf 50) x y).a = 255 ↔
        ((50 : ℚ) : ℝ) < Real.sqrt (((sobelGx edgeBuf x y : ℚ) : ℝ) ^ 2
          + ((sobelGy edgeBuf x y : ℚ) : ℝ) ^ 2)))) :=
  ⟨by decide, by decide, claim6_sobel_spec edgeBuf 50 (by decide) (by decide)⟩

/-- C7 counterexample: the spacing 12 minus the floor of 20 times the density
is not strictly decreasing on the legal range; the densities 0 and 1/25 are
both legal and distinct yet give the same spacing 12. -/
theorem claim7_counterexample :
    (0 : ℚ) < 1/25 ∧ (1/25 : ℚ) ≤ 0.4 ∧ halftoneSpacing 0 = 12 ∧
    halftoneSpacing (1/25) = 12 ∧ ¬ halftoneSpacing (1/25) < halftoneSpacing 0 := by
  have h1 : halftoneSpacing 0 = 12 := by rw [halftoneSpacing]; norm_num
  have h2 : halftoneSpacing (1/25) = 12 := by rw [halftoneSpacing]; norm_num
  exact ⟨by norm_num, by norm_num, h1, h2, by rw [h1, h2]; omega⟩

/-- C7, amended: over the legal density range the HalftoneSynth lattice
spacing 12 minus the floor of 20 times the density is antitone (larger
density never gives larger spacing), and it stays at least 4, so the
clamp to at least 1 never takes effect; it is not strictly decreasing. -/
theorem claim7_spacing_antitone (d1 d2 : ℚ) (h0 : 0 ≤ d1) (h12 : d1 ≤ d2) (h2 : d2 ≤ 0.4) :
    halftoneSpacing d2 ≤ halftoneSpacing d1 ∧ 4 ≤ halftoneSpacing d2 := by
  constructor
  · have hm := Int.floor_mono (show d1 * 20 ≤ d2 * 20 by linarith)
    simp only [halftoneSpacing]
    omega
  · have hm := Int.floor_mono (show d2 * 20 ≤ ((8 : ℤ) : ℚ) by push_cast; linarith)
    rw [Int.floor_intCast] at hm
    simp only [halftoneSpacing]
    omega

/-- Witness for the amended C7 statement at the concrete densities 0 and 1/5. -/
theorem claim7_witness :
    (0 : ℚ) ≤ 0 ∧ (0 : ℚ) ≤ 1/5 ∧ (1/5 : ℚ) ≤ 0.4 ∧
    (halftoneSpacing (1/5) ≤ halftoneSpacing 0 ∧ 4 ≤ halftoneSpacing (1/5)) :=
  ⟨by norm_num, by norm_num, by norm_num,
   claim7_spacing_antitone 0 (1/5) (by norm_num) (by norm_num) (by norm_num)⟩

/-- C10: drawHalftone draws nothing exactly when the halftone toggle is off
or the density is at most 0.01, even though densities in that window are
legal; for densities above 0.01 with the toggle on, the opacity setting
0.15 plus 0.25 times the density is emitted. -/
theorem claim10_halftone_noop :
    (∀ (e : Bool) (w h : ℕ) (d : ℚ), drawHalftone e w h d = [] ↔ (e = false ∨ d ≤ 0.01)) ∧
    (∀ (w h : ℕ) (d : ℚ), 0.01 < d →
      CanvasOp.setAlpha (0.15 + d * 0.25) ∈ drawHalftone true w h d) := by
  constructor
  · intro e w h d
    by_cases hc : e = false ∨ d ≤ 0.01
    · rw [drawHalftone, if_pos hc]
      simp [hc]
    · rw [drawHalftone, if_neg hc]
      simp [hc]
  · intro w h d hd
    have hc : ¬(true = false ∨ d ≤ (0.01 : ℚ)) := by
      simp only [not_or]
      exact ⟨by simp, by linarith⟩
    rw [drawHalftone, if_neg hc]
    simp

/-- Witness for C10: at density 1/5 with the toggle off nothing is drawn, and
at the legal density 1/50 above the cutoff the opacity call is present. -/
theorem claim10_witness :
    drawHalftone false 100 100 (1/5) = [] ∧ (0.01 : ℚ) < 1/50 ∧
    CanvasOp.setAlpha (0.15 + (1/50) * 0.25) ∈ drawHalftone true 100 100 (1/50) :=
  ⟨(claim10_halftone_noop.1 false 100 100 (1/5)).mpr (Or.inl rfl), by norm_num,
   claim10_halftone_noop.2 100 100 (1/50) (by norm_num)⟩

/-- C5: the advisor output is not clamped to the declared field ranges, only
to the unit interval.  At the in-range statistics meanSaturation 0 and
contrastIndex 1 the suggested saturation boost is 0.56, outside its declared
range 0 to 0.5, and the suggested halftone density is 0.65, outside its
declared range 0 to 0.4 defended by the corresponding sliders. -/
theorem claim5_advisor_out_of_range :
    (suggestControls [] 0 0 0 1).saturationBoost = 0.56 ∧
    ¬ (suggestControls [] 0 0 0 1).saturationBoost ≤ 0.5 ∧
    (suggestControls [] 0 0 0 1).halftoneDensity = 0.65 ∧
    ¬ (suggestControls [] 0 0 0 1).halftoneDensity ≤ 0.4 := by
  have h1 : (suggestControls [] 0 0 0 1).saturationBoost = 0.56 := by
    simp only [suggestControls, clamp01]
    norm_num
  have h2 : (suggestControls [] 0 0 0 1).halftoneDensity = 0.65 := by
    simp only [suggestControls, clamp01]
    norm_num
  exact ⟨h1, by rw [h1]; norm_num, h2, by rw [h2]; norm_num⟩

/-- C8 counterexample: importing a parseable profile whose suggested
saturation boost is 7 surfaces no failure at all (the catch block is empty)
and silently overwrites both the held profile and the control values. -/
theorem claim8_counterexample :
    (importProfileJSON (some badProfile) defaultState).2 = Option.none ∧
    (importProfileJSON (some badProfile) defaultState).1.saturationBoost = 7 ∧
    ¬ (importProfileJSON (some badProfile) defaultState).1.saturationBoost ≤ 0.5 ∧
    (importProfileJSON (some badProfile) defaultState).1.saturationBoost
      ≠ defaultState.saturationBoost ∧
    (importProfileJSON (some badProfile) defaultState).1.profile ≠ defaultState.profile := by
  have h1 : (importProfileJSON (some badProfile) defaultState).1.saturationBoost = 7 := rfl
  have h2 : defaultState.saturationBoost = 0.3 := rfl
  have h3 : (importProfileJSON (some badProfile) defaultState).1.profile = some badProfile := rfl
  have h4 : defaultState.profile = Option.none := rfl
  refine ⟨rfl, h1, by rw [h1]; norm_num, by rw [h1, h2]; norm_num, by rw [h3, h4]; simp⟩

/-- C8, amended: only data on which JSON.parse throws leaves the state
unchanged, and even then the failure is swallowed rather than surfaced
(the importer never reports an error for any input); parseable data is applied
without any validation, and a parseable profile with the suggested block
missing yields, under auto-apply, an incomplete update in which the profile
is replaced while the control values and stored copy stay as they were. -/
theorem claim8_amended (st : AppState) (inp : Option RawProfile) (p : RawProfile)
    (hauto : st.autoApply = true) (hs : p.suggested = Option.none) :
    importProfileJSON Option.none st = (st, Option.none) ∧
    (importProfileJSON inp st).2 = Option.none ∧
    importProfileJSON (some p) st = ({ st with profile := some p }, Option.none) := by
  refine ⟨rfl, ?_, ?_⟩
  · cases inp with
    | none => rfl
    | some q =>
      rcases hq : q.suggested with _ | s <;> rcases hst : st.autoApply with _ | _ <;>
        simp [importProfileJSON, hq, hst]
  · simp [importProfileJSON, hauto, hs]

/-- Witness for the amended C8 statement at the default state, the
out-of-range profile and the profile missing its suggested block. -/
theorem claim8_witness :
    defaultState.autoApply = true ∧ headlessProfile.suggested = Option.none ∧
    (importProfileJSON Option.none defaultState = (defaultState, Option.none) ∧
     (importProfileJSON (some badProfile) defaultState).2 = Option.none ∧
     importProfileJSON (some headlessProfile) defaultState
       = ({ defaultState with profile := some headlessProfile }, Option.none)) :=
  ⟨rfl, rfl, claim8_amended defaultState (some badProfile) headlessProfile rfl rfl⟩

/-- C9 counterexample: applyPaletteToImageData writes through the data array
of its argument and returns that same object: after the call on the stored
buffer of a gray pixel with a single black palette entry, the stored input
buffer has changed, the returned id is the input id, and no new buffer was
allocated. -/
theorem claim9_counterexample :
    (applyPaletteCall ⟨[[⟨5, 5, 5, 9⟩]]⟩ 0 [⟨0, 0, 0⟩]).1.bufs.getD 0 [] ≠ [Pixel.mk 5 5 5 9] ∧
    (applyPaletteCall ⟨[[⟨5, 5, 5, 9⟩]]⟩ 0 [⟨0, 0, 0⟩]).2 = 0 ∧
    (applyPaletteCall ⟨[[⟨5, 5, 5, 9⟩]]⟩ 0 [⟨0, 0, 0⟩]).1.bufs = [[Pixel.mk 0 0 0 9]] := by
  decide

/-- C9, amended: the posterize and palette-transfer stages mutate their input
buffer in place and return the very same buffer id rather than a fresh one;
the stylize pipeline nevertheless leaves the source buffer intact at the
posterize stage only because it posterizes an explicit copyImageData copy,
whose id is fresh, so the source id still holds its original data. -/
theorem claim9_amended (st : Store) (id : ℕ) (levels : ℤ) (sb : ℚ) (pal : List RGB)
    (h : id < st.bufs.length) :
    (applyPaletteCall st id pal).2 = id ∧
    (posterizeCall st id levels sb).2 = id ∧
    (posterizeCall (copyImageDataCall st id).1 (copyImageDataCall st id).2 levels sb).1.bufs.getD
        id [] = st.bufs.getD id [] := by
  refine ⟨rfl, rfl, ?_⟩
  simp only [posterizeCall, copyImageDataCall]
  rw [List.getD_eq_getD_get?, List.getD_eq_getD_get?]
  rw [List.get?_set_ne _ _ (by omega : st.bufs.length ≠ id)]
  rw [List.get?_append h]

/-- Witness for the amended C9 statement on a one-buffer store. -/
theorem claim9_witness :
    0 < (Store.mk [[Pixel.mk 1 2 3 4]]).bufs.length ∧
    ((applyPaletteCall ⟨[[⟨1, 2, 3, 4⟩]]⟩ 0 []).2 = 0 ∧
     (posterizeCall ⟨[[⟨1, 2, 3, 4⟩]]⟩ 0 2 0).2 = 0 ∧
     (posterizeCall (copyImageDataCall ⟨[[⟨1, 2, 3, 4⟩]]⟩ 0).1
        (copyImageDataCall ⟨[[⟨1, 2, 3, 4⟩]]⟩ 0).2 2 0).1.bufs.getD 0 []
       = (Store.mk [[Pixel.mk 1 2 3 4]]).bufs.getD 0 []) :=
  ⟨by decide, claim9_amended ⟨[[⟨1, 2, 3, 4⟩]]⟩ 0 2 0 [] (by decide)⟩

/-- C3: evaluation of drawBurst at width 200, height 100, strength 1/2, for
any cosine and sine functions: there are 16 plus 32 ray segments as the
claim counts them, but every segment starts exactly at the canvas center
(100, 50) rather than at radius 20 from it, because the path uses moveTo of
the center while the computed radius-20 start point is discarded. -/
theorem claim3_rays_start_at_center (cosF sinF : ℚ → ℚ) (piQ : ℚ) :
    ((drawBurst cosF sinF piQ 200 100 (1/2)).filter isLineOp).length = 16 + 32 ∧
    ∀ op ∈ (drawBurst cosF sinF piQ 200 100 (1/2)).filter isLineOp,
      lineStart op = some (100, 50) := by
  have hcond : ¬((1/2 : ℚ) ≤ 0.01) := by norm_num
  have hfloor : (⌊64 * (1/2 : ℚ)⌋ + 16).toNat = 48 := by
    rw [show ⌊64 * (1/2 : ℚ)⌋ = 32 by norm_num]
    rfl
  constructor
  · rw [drawBurst, if_neg hcond, hfloor]
    rw [List.filter_append, List.filter_append]
    rw [show List.filter isLineOp [CanvasOp.save, CanvasOp.setAlpha (0.25 * (1/2))] = [] from rfl]
    rw [show List.filter isLineOp [CanvasOp.restore] = [] from rfl]
    rw [List.filter_eq_self.mpr (by
      intro a ha
      obtain ⟨i, _, rfl⟩ := List.mem_map.mp ha
      rfl)]
    simp
  · intro op hop
    rw [drawBurst, if_neg hcond, hfloor] at hop
    rw [List.mem_filter] at hop
    obtain ⟨hmem, hline⟩ := hop
    simp only [List.cons_append, List.nil_append, List.mem_cons, List.mem_append,
      List.mem_map, List.mem_range, List.mem_singleton, List.not_mem_nil, or_false] at hmem
    rcases hmem with rfl | rfl | ⟨i, hi, rfl⟩ | rfl
    · simp [isLineOp] at hline
    · simp [isLineOp] at hline
    · simp only [lineStart, Option.some.injEq, Prod.mk.injEq]
      norm_num
    · simp [isLineOp] at hline

/-- C4: two invocations of stylize on the same source buffer and the same
parameter set with the motif pack none issue identical drawing traces no
matter which random streams back the two runs: with the randomized motif
packs switched off, no stage of the pass consumes randomness. -/
theorem claim4_deterministic (cosF sinF : ℚ → ℚ) (piQ : ℚ) (rng1 rng2 : ℕ → ℚ)
    (src : PixelBuffer) (p : ParameterSet) (hp : p.motifPack = MotifPack.none) :
    stylize cosF sinF piQ rng1 src p = stylize cosF sinF piQ rng2 src p := by
  simp only [stylize, hp, drawMotifs]

/-- Witness for C4 at a concrete buffer, concrete parameters with motif pack
none, and two visibly different random streams. -/
theorem claim4_witness :
    noneParams.motifPack = MotifPack.none ∧
    stylize (fun x => x) (fun x => x) 3 (fun n => (n : ℚ)) grayBuf noneParams
      = stylize (fun x => x) (fun x => x) 3 (fun _ => 0) grayBuf noneParams :=
  ⟨rfl, claim4_deterministic (fun x => x) (fun x => x) 3 (fun n => (n : ℚ)) (fun _ => 0)
    grayBuf noneParams rfl⟩

end PosterizerPro
